import Mathlib

/-!
# Verification of the multi-tier SDG classification pipeline

Shallow embedding of the prediction core of the `nlp_uas` repository:
the remote zero-shot path (`api/index.py: predict_sdgs_with_hf`,
`app.py: predict_with_hf_api`), the local model path
(`utils/model_loader.py: ModelLoader.predict_sdgs`), the rule-based
fallbacks, and the broken `utils/huggingface_predictor.py` predictor.

Python floats are modelled as rationals (`ℚ`); Python exceptions are
modelled with `Except PyErr`; the remote HTTP service and the loaded
model artifact are modelled as oracle parameters.
-/

namespace SdgPipeline

/-! ## Character-level utilities

`str.lower` (ASCII range), the Python `\s` whitespace class, and the
`[^a-zA-Z\s]` character class used by `ModelLoader._preprocess_text`. -/

/-- Python `\s`: space, tab, newline, carriage return, vertical tab, form feed. -/
def isPyWs (c : Char) : Bool :=
  c = ' ' || c = '\t' || c = '\n' || c = '\r' || c = '\x0b' || c = '\x0c'

/-- A Latin letter, i.e. the regex class `[a-zA-Z]`. -/
def isLatinChar (c : Char) : Bool :=
  ('a' ≤ c && c ≤ 'z') || ('A' ≤ c && c ≤ 'Z')

/-- Characters kept by `re.sub(r'[^a-zA-Z\s]', '', text)`. -/
def keepChar (c : Char) : Bool :=
  isLatinChar c || isPyWs c

/-- Python `str.lower` restricted to the ASCII letters (all texts and
keywords in the repository are ASCII). -/
def pyLowerChar : Char → Char
  | 'A' => 'a' | 'B' => 'b' | 'C' => 'c' | 'D' => 'd' | 'E' => 'e'
  | 'F' => 'f' | 'G' => 'g' | 'H' => 'h' | 'I' => 'i' | 'J' => 'j'
  | 'K' => 'k' | 'L' => 'l' | 'M' => 'm' | 'N' => 'n' | 'O' => 'o'
  | 'P' => 'p' | 'Q' => 'q' | 'R' => 'r' | 'S' => 's' | 'T' => 't'
  | 'U' => 'u' | 'V' => 'v' | 'W' => 'w' | 'X' => 'x' | 'Y' => 'y'
  | 'Z' => 'z'
  | c => c

/-- `text.lower()` on a whole string. -/
def pyLower (s : String) : String :=
  ⟨s.data.map pyLowerChar⟩

/-- Whether the first list is a prefix of the second. -/
def isPrefixCL : List Char → List Char → Bool
  | [], _ => true
  | _ :: _, [] => false
  | a :: as, b :: bs => a = b && isPrefixCL as bs

/-- Python substring containment `needle in hay` (on already comparable
character lists): `needle` occurs contiguously in `hay`. -/
def containsSub (needle : List Char) : List Char → Bool
  | [] => needle.isEmpty
  | b :: bs => isPrefixCL needle (b :: bs) || containsSub needle bs

/-- The characters of `l` before the first occurrence of `sep`, i.e.
Python `l.split(sep)[0]` (the whole of `l` when `sep` does not occur). -/
def splitFirstSeg (sep : List Char) : List Char → List Char
  | [] => []
  | c :: cs => if isPrefixCL sep (c :: cs) then [] else c :: splitFirstSeg sep cs

/-! ## `ModelLoader._preprocess_text` (model_loader.py lines 139-144)

```python
text = text.lower()
text = re.sub(r'[^a-zA-Z\s]', '', text)
text = re.sub(r'\s+', ' ', text).strip()
```
-/

/-- `re.sub(r'\s+', ' ', ·)`: replace every maximal run of whitespace
characters by a single space. -/
def collapseWs : List Char → List Char
  | [] => []
  | [c] => if isPyWs c then [' '] else [c]
  | c₁ :: c₂ :: cs =>
    if isPyWs c₁ && isPyWs c₂ then collapseWs (c₂ :: cs)
    else (if isPyWs c₁ then ' ' else c₁) :: collapseWs (c₂ :: cs)

/-- Python `str.strip()`: drop whitespace from both ends. -/
def stripWs (l : List Char) : List Char :=
  ((l.dropWhile isPyWs).reverse.dropWhile isPyWs).reverse

/-- `ModelLoader._preprocess_text` on character lists. -/
def preprocessList (l : List Char) : List Char :=
  stripWs (collapseWs ((l.map pyLowerChar).filter keepChar))

/-- `ModelLoader._preprocess_text`. -/
def preprocessText (s : String) : String :=
  ⟨preprocessList s.data⟩

/-! ## Keyword tables and labels -/

/-- `sdg_keywords` of `extract_keywords_from_text` (api/index.py lines 164-182). -/
def sdgKeywordsIdx : Nat → List String
  | 1 => ["poverty", "poor", "income", "economic", "financial", "disadvantage"]
  | 2 => ["hunger", "food", "nutrition", "agriculture", "farming", "malnutrition"]
  | 3 => ["health", "medical", "disease", "healthcare", "wellbeing", "wellness"]
  | 4 => ["education", "school", "learning", "student", "teacher", "literacy"]
  | 5 => ["gender", "women", "equality", "female", "empowerment", "rights"]
  | 6 => ["water", "sanitation", "hygiene", "clean", "wastewater", "sewage"]
  | 7 => ["energy", "renewable", "solar", "electricity", "power", "wind"]
  | 8 => ["employment", "work", "economic", "growth", "job", "labor"]
  | 9 => ["industry", "innovation", "infrastructure", "technology", "research"]
  | 10 => ["inequality", "equality", "inclusion", "discrimination", "disparity"]
  | 11 => ["cities", "urban", "sustainable", "community", "housing", "settlement"]
  | 12 => ["consumption", "production", "waste", "sustainable", "recycling"]
  | 13 => ["climate", "carbon", "emission", "warming", "environmental", "greenhouse"]
  | 14 => ["ocean", "marine", "water", "sea", "aquatic", "fish"]
  | 15 => ["forest", "biodiversity", "land", "ecosystem", "wildlife", "conservation"]
  | 16 => ["peace", "justice", "institutions", "governance", "rights", "law"]
  | 17 => ["partnership", "collaboration", "cooperation", "global", "alliance"]
  | _ => []

/-- `sdg_keywords` of `ModelLoader._extract_keywords` (model_loader.py lines 162-180). -/
def sdgKeywordsML : Nat → List String
  | 1 => ["poverty", "poor", "income", "economic", "financial"]
  | 2 => ["hunger", "food", "nutrition", "agriculture", "farming"]
  | 3 => ["health", "medical", "disease", "healthcare", "wellbeing"]
  | 4 => ["education", "school", "learning", "student", "teacher"]
  | 5 => ["gender", "women", "equality", "female", "empowerment"]
  | 6 => ["water", "sanitation", "hygiene", "clean", "wastewater"]
  | 7 => ["energy", "renewable", "solar", "electricity", "power"]
  | 8 => ["employment", "work", "economic", "growth", "job"]
  | 9 => ["industry", "innovation", "infrastructure", "technology"]
  | 10 => ["inequality", "equality", "inclusion", "discrimination"]
  | 11 => ["cities", "urban", "sustainable", "community", "housing"]
  | 12 => ["consumption", "production", "waste", "sustainable"]
  | 13 => ["climate", "carbon", "emission", "warming", "environmental"]
  | 14 => ["ocean", "marine", "water", "sea", "aquatic"]
  | 15 => ["forest", "biodiversity", "land", "ecosystem", "wildlife"]
  | 16 => ["peace", "justice", "institutions", "governance", "rights"]
  | 17 => ["partnership", "collaboration", "cooperation", "global"]
  | _ => []

/-- `SDG_LABELS` (api/index.py lines 27-45). -/
def SDG_LABELS : List String :=
  [ "No Poverty - ending poverty in all its forms"
  , "Zero Hunger - ending hunger and promoting sustainable agriculture"
  , "Good Health and Well-being - ensuring healthy lives and promoting well-being"
  , "Quality Education - ensuring inclusive and equitable quality education"
  , "Gender Equality - achieving gender equality and empowering women and girls"
  , "Clean Water and Sanitation - ensuring availability of water and sanitation"
  , "Affordable and Clean Energy - ensuring access to affordable and clean energy"
  , "Decent Work and Economic Growth - promoting sustained economic growth and decent work"
  , "Industry Innovation and Infrastructure - building resilient infrastructure and fostering innovation"
  , "Reduced Inequality - reducing inequality within and among countries"
  , "Sustainable Cities and Communities - making cities and human settlements sustainable"
  , "Responsible Consumption and Production - ensuring sustainable consumption and production"
  , "Climate Action - taking urgent action to combat climate change"
  , "Life Below Water - conserving and sustainably using oceans and marine resources"
  , "Life on Land - protecting and restoring terrestrial ecosystems and biodiversity"
  , "Peace Justice and Strong Institutions - promoting peaceful and inclusive societies"
  , "Partnerships for the Goals - strengthening global partnerships for sustainable development" ]

/-- `self.sdg_labels` of `ModelLoader` (model_loader.py lines 14-22). -/
def sdgLabelsML : List String :=
  [ "No Poverty", "Zero Hunger", "Good Health and Well-being"
  , "Quality Education", "Gender Equality", "Clean Water and Sanitation"
  , "Affordable and Clean Energy", "Decent Work and Economic Growth"
  , "Industry, Innovation and Infrastructure", "Reduced Inequality"
  , "Sustainable Cities and Communities", "Responsible Consumption and Production"
  , "Climate Action", "Life Below Water", "Life on Land"
  , "Peace, Justice and Strong Institutions", "Partnerships for the Goals" ]

/-! ## Keyword extraction -/

/-- `extract_keywords_from_text(text, sdg_number)` (api/index.py lines 162-188):
lower-case the raw text, keep the keywords occurring in it as substrings,
in table order, truncated to the first 5. -/
def extractKeywordsIdx (text : String) (sdg : Nat) : List String :=
  (((sdgKeywordsIdx sdg).filter
      (fun kw => containsSub kw.data (pyLower text).data)).take 5)

/-- `ModelLoader._extract_keywords(text, sdg_number)` (model_loader.py
lines 160-186), identical shape over the smaller table. -/
def extractKeywordsML (text : String) (sdg : Nat) : List String :=
  (((sdgKeywordsML sdg).filter
      (fun kw => containsSub kw.data (pyLower text).data)).take 5)

/-- `label.split(' - ')[0] if ' - ' in label else label` (api/index.py line 128). -/
def leadingSegment (label : String) : String :=
  if containsSub " - ".data label.data then ⟨splitFirstSeg " - ".data label.data⟩
  else label

/-! ## Result records and number formatting -/

/-- One entry of a prediction-result list. The dictionaries built by
`model_loader.py` carry no `source` key, hence the `Option`. -/
structure Candidate where
  sdgNumber : Nat
  sdgName : String
  confidence : ℚ
  matchedKeywords : List String
  explanation : String
  source : Option String
deriving Repr, DecidableEq

/-- Round to the nearest integer, ties to even (the rounding used when
Python formats a float with a fixed number of decimals). -/
def roundHalfEven (q : ℚ) : Int :=
  let f := ⌊q⌋
  let r := q - f
  if r < 1/2 then f
  else if 1/2 < r then f + 1
  else if f % 2 = 0 then f else f + 1

/-- Fixed-point decimal rendering with `prec` digits, as in Python
`f"{x:.2f}"`. -/
def formatFixed (prec : Nat) (q : ℚ) : String :=
  let n : Int := roundHalfEven (q * (10 : ℚ) ^ prec)
  let a : Nat := n.natAbs
  let unit : Nat := 10 ^ prec
  let digits :=
    if prec = 0 then "" else
      "." ++ (List.range prec).foldl
        (fun acc i => acc ++ toString (a / 10 ^ (prec - 1 - i) % 10)) ""
  let s := toString (a / unit) ++ digits
  if n < 0 then "-" ++ s else s

/-- Python `f"{x:.2%}"`. -/
def formatPercent2 (q : ℚ) : String :=
  formatFixed 2 (q * 100) ++ "%"

/-- Python `f"{x:.1%}"`. -/
def formatPercent1 (q : ℚ) : String :=
  formatFixed 1 (q * 100) ++ "%"

/-! ## Rule-based fallback of `api/index.py` (`fallback_prediction`, lines 190-227) -/

/-- The sentinel "no match" entry emitted by `fallback_prediction`
(api/index.py lines 217-225). -/
def sentinelIdx : Candidate :=
  { sdgNumber := 0
  , sdgName := "No Clear Match"
  , confidence := 0
  , matchedKeywords := []
  , explanation := "No SDGs detected with sufficient confidence"
  , source := some "fallback" }

/-- The `sdg_scores` dict (api/index.py lines 195-201): for each SDG
1..17, `score = len(keywords) * 0.15`; stored as `min(0.85, score)` only
when `score > 0`.  Python dicts preserve insertion order, so the dict is
a list of pairs in SDG order. -/
def sdgScoresIdx (text : String) : List (Nat × ℚ) :=
  (List.range' 1 17).filterMap (fun sdg =>
    let score : ℚ := ((extractKeywordsIdx text sdg).length : ℚ) * (15/100)
    if 0 < score then some (sdg, min (85/100) score) else none)

/-- `sorted(sdg_scores.items(), key=lambda x: x[1], reverse=True)[:top_k]`
(api/index.py line 203): a stable descending sort by score, truncated.
`List.insertionSort` is stable, matching Python's stable `sorted`. -/
def sortedSdgsIdx (text : String) (topk : Nat) : List (Nat × ℚ) :=
  (List.insertionSort (fun a b : Nat × ℚ => b.2 ≤ a.2) (sdgScoresIdx text)).take topk

/-- The result dict built for one `(sdg_num, score)` pair by
`fallback_prediction` (api/index.py lines 206-215). -/
def candIdx (text : String) (p : Nat × ℚ) : Candidate :=
  { sdgNumber := p.1
  , sdgName := ⟨splitFirstSeg " - ".data (SDG_LABELS.getD (p.1 - 1) "").data⟩
  , confidence := p.2
  , matchedKeywords := extractKeywordsIdx text p.1
  , explanation := "Rule-based match. Found " ++
      toString (extractKeywordsIdx text p.1).length ++ " relevant keywords"
  , source := some "rule_based_fallback" }

/-- `fallback_prediction(text, top_k)` (api/index.py lines 190-227). -/
def fallbackPredictionIdx (text : String) (topk : Nat) : List Candidate :=
  let results := (sortedSdgsIdx text topk).map (candIdx text)
  if results.isEmpty then [sentinelIdx] else results

/-! ## Rule-based fallback of `ModelLoader` (`_fallback_prediction`,
model_loader.py lines 188-222) -/

/-- The sentinel entry of `ModelLoader._fallback_prediction`
(model_loader.py lines 213-220); no `source` key. -/
def sentinelML : Candidate :=
  { sdgNumber := 0
  , sdgName := "No Clear Match"
  , confidence := 0
  , matchedKeywords := []
  , explanation := "No SDGs detected with sufficient confidence"
  , source := none }

/-- The `sdg_scores` dict (model_loader.py lines 194-199): here the raw
`score` is stored; the `min(0.8, ...)` cap is applied later, on the
`confidence` field. -/
def sdgScoresML (text : String) : List (Nat × ℚ) :=
  (List.range' 1 17).filterMap (fun sdg =>
    let score : ℚ := ((extractKeywordsML text sdg).length : ℚ) * (15/100)
    if 0 < score then some (sdg, score) else none)

/-- `sorted(sdg_scores.items(), key=lambda x: x[1], reverse=True)[:top_k]`
(model_loader.py line 201). -/
def sortedSdgsML (text : String) (topk : Nat) : List (Nat × ℚ) :=
  (List.insertionSort (fun a b : Nat × ℚ => b.2 ≤ a.2) (sdgScoresML text)).take topk

/-- The result dict built for one `(sdg_num, score)` pair by
`ModelLoader._fallback_prediction` (model_loader.py lines 204-211);
the cap `min(0.8, score)` is applied to the confidence here. -/
def candML (text : String) (p : Nat × ℚ) : Candidate :=
  { sdgNumber := p.1
  , sdgName := sdgLabelsML.getD (p.1 - 1) ""
  , confidence := min (80/100) p.2
  , matchedKeywords := extractKeywordsML text p.1
  , explanation := "Rule-based match. Confidence: " ++ formatFixed 2 p.2
  , source := none }

/-- `ModelLoader._fallback_prediction(text, top_k)` (model_loader.py
lines 188-222). -/
def fallbackPredictionML (text : String) (topk : Nat) : List Candidate :=
  let results := (sortedSdgsML text topk).map (candML text)
  if results.isEmpty then [sentinelML] else results

/-! ## Exceptions and the remote zero-shot tier -/

/-- The Python exceptions relevant to the prediction core. -/
inductive PyErr where
  | attributeError
  | indexError
  | jsonDecodeError
  | timeoutError
  | requestError
  | inferenceError
deriving Repr, DecidableEq

/-- `try: body except Exception: handler` — every error raised by the
body is given to the handler. -/
def pyTryAll {α : Type} (body : Except PyErr α) (handler : PyErr → Except PyErr α) :
    Except PyErr α :=
  match body with
  | .ok a => .ok a
  | .error e => handler e

/-- Outcome of `response.json()`: either it raises, or it yields a dict
from which `data.get('labels', [])` and `data.get('scores', [])` are
read (a parsed payload missing those keys yields empty lists). -/
inductive JsonOutcome where
  | jsonFail
  | jsonOk (labels : List String) (scores : List ℚ)
deriving Repr

/-- Outcome of `requests.post(...)`: a timeout, some other request
exception, or a response with a status code and a body. -/
inductive PostOutcome where
  | timeout
  | raised
  | resp (status : Nat) (body : JsonOutcome)
deriving Repr

/-- The environment of the remote tier: whether `HF_API_TOKEN` is set,
and the remote service as an oracle from the posted input text to an
outcome. -/
structure HfEnv where
  tokenSet : Bool
  post : String → PostOutcome

/-- `text[:500]` — the truncation applied to the text sent to the remote
service (api/index.py lines 98-99, app.py line 66).  No other transform
is applied before the remote call. -/
def hfRemoteInput (text : String) : String :=
  ⟨text.data.take 500⟩

/-- The result-building loop of `predict_sdgs_with_hf` on a 200 response
(api/index.py lines 121-140): for `i in range(min(top_k, len(labels)))`,
read `labels[i]` and `scores[i]` and emit a candidate with
`sdg_number = i + 1`.  `scores[i]` raises `IndexError` when `scores` is
shorter than the loop range, aborting the loop and discarding the
partial list. -/
def candHf (text : String) (labels : List String) (scores : List ℚ)
    (i : Nat) : Candidate :=
  let label := labels.getD i ""
  let score := scores.getD i 0
  let sdgName := leadingSegment label
  { sdgNumber := i + 1
  , sdgName := sdgName
  , confidence := score
  , matchedKeywords := extractKeywordsIdx text (i + 1)
  , explanation := "AI-predicted alignment with " ++ sdgName ++
      ". Confidence: " ++ formatPercent2 score
  , source := some "huggingface_inference_api" }

def hfSuccessResults (text : String) (topk : Nat) (labels : List String)
    (scores : List ℚ) : Except PyErr (List Candidate) :=
  let n := min topk labels.length
  if n ≤ scores.length then
    .ok ((List.range n).map (candHf text labels scores))
  else .error .indexError

/-- `predict_sdgs_with_hf(text, top_k)` (api/index.py lines 88-160).
No token → rule-based fallback.  Otherwise post `text[:500]`; on 200
build results from the payload; on 503, any other status, a timeout, or
any exception raised inside the `try` block, return the rule-based
fallback. -/
def predictSdgsWithHf (env : HfEnv) (text : String) (topk : Nat) :
    Except PyErr (List Candidate) :=
  if env.tokenSet = false then .ok (fallbackPredictionIdx text topk)
  else
    pyTryAll
      (match env.post (hfRemoteInput text) with
       | .timeout => .error .timeoutError
       | .raised => .error .requestError
       | .resp status body =>
         if status = 200 then
           match body with
           | .jsonFail => .error .jsonDecodeError
           | .jsonOk labels scores => hfSuccessResults text topk labels scores
         else if status = 503 then .ok (fallbackPredictionIdx text topk)
         else .ok (fallbackPredictionIdx text topk))
      (fun _ => .ok (fallbackPredictionIdx text topk))

/-- The result-building loop of `predict_with_hf_api` (app.py lines
80-89): identical rank-based numbering, but keywords come from
`model_loader._extract_keywords` and failures yield `None`. -/
def candApp (text : String) (labels : List String) (scores : List ℚ)
    (i : Nat) : Candidate :=
  let sdgName : String := ⟨splitFirstSeg " - ".data (labels.getD i "").data⟩
  { sdgNumber := i + 1
  , sdgName := sdgName
  , confidence := scores.getD i 0
  , matchedKeywords := extractKeywordsML text (i + 1)
  , explanation := "AI analysis: " ++ sdgName ++ " (" ++
      formatPercent1 (scores.getD i 0) ++ " confidence)"
  , source := none }

def appHfSuccess (text : String) (topk : Nat) (labels : List String)
    (scores : List ℚ) : Option (List Candidate) :=
  let n := min topk labels.length
  if n ≤ scores.length then
    some ((List.range n).map (candApp text labels scores))
  else none

/-- `predict_with_hf_api(text, top_k)` (app.py lines 58-96): `None` on a
missing token, on any exception, and on any non-200 status. -/
def predictWithHfApi (env : HfEnv) (text : String) (topk : Nat) :
    Option (List Candidate) :=
  if env.tokenSet = false then none
  else
    match env.post (hfRemoteInput text) with
    | .timeout => none
    | .raised => none
    | .resp status body =>
      if status = 200 then
        match body with
        | .jsonFail => none
        | .jsonOk labels scores => appHfSuccess text topk labels scores
      else none

/-! ## `ModelLoader.predict_sdgs` (model_loader.py lines 79-137) -/

/-- The state of the loaded artifact, as branched on by the source:
no model at all; a model exposing `predict_proba` (invoked on the
preprocessed text, modelled as an oracle, or raising); a separate
vectorizer + classifier pair (likewise); or a loaded object with
neither `predict_proba` nor a vectorizer. -/
inductive MLModel where
  | noModel
  | withProba (f : String → List ℚ)
  | probaRaises
  | vectorized (f : String → List ℚ)
  | vectorRaises
  | unusable

/-- `np.argsort(probabilities)[::-1][:top_k]` (model_loader.py line
108): indices sorted ascending by probability, reversed, truncated. -/
def argsortDescTake (probs : List ℚ) (topk : Nat) : List Nat :=
  ((List.insertionSort (fun i j : Nat => probs.getD i 0 ≤ probs.getD j 0)
      (List.range probs.length)).reverse).take topk

/-- `ModelLoader._generate_explanation(sdg_number, confidence, text)`
(model_loader.py lines 146-158). -/
def generateExplanationML (sdg : Nat) (confidence : ℚ) (text : String) : String :=
  let level :=
    if 7/10 ≤ confidence then "Strong alignment"
    else if 4/10 ≤ confidence then "Moderate alignment"
    else "Weak alignment"
  let kws := (extractKeywordsML text sdg).take 3
  let kwText := if kws.isEmpty then "general terms"
    else String.intercalate ", " kws
  level ++ " with SDG " ++ toString sdg ++ ". Key indicators: " ++ kwText

/-- The result dict built for one surviving index by the loop of
`predict_sdgs` (model_loader.py lines 117-126). -/
def candModel (text : String) (probs : List ℚ) (i : Nat) : Candidate :=
  { sdgNumber := i + 1
  , sdgName := sdgLabelsML.getD i ""
  , confidence := probs.getD i 0
  , matchedKeywords := extractKeywordsML text (i + 1)
  , explanation := generateExplanationML (i + 1) (probs.getD i 0) text
  , source := none }

/-- The result loop of `predict_sdgs` (model_loader.py lines 110-126):
skip probabilities `< 0.05` (`continue`), then read
`self.sdg_labels[idx]`, which raises `IndexError` for `idx ≥ 17`
(discarding the partial results, which the `except` then replaces by the
fallback). -/
def mlBuildResults (text : String) (probs : List ℚ) (topk : Nat) :
    Except PyErr (List Candidate) :=
  let idxs := (argsortDescTake probs topk).filter
    (fun i => decide (¬ probs.getD i 0 < 1/20))
  if idxs.all (fun i => i < 17) then
    .ok (idxs.map (candModel text probs))
  else .error .indexError

/-- `ModelLoader.predict_sdgs(text, top_k)` (model_loader.py lines
79-137).  No model → fallback.  Otherwise the `try` block preprocesses
the text, obtains probabilities (or returns the fallback when the
artifact is unusable), builds results, and returns the fallback when
they are empty; any exception inside the `try` is replaced by the
fallback. -/
def mlPredict (model : MLModel) (text : String) (topk : Nat) :
    Except PyErr (List Candidate) :=
  match model with
  | .noModel => .ok (fallbackPredictionML text topk)
  | .unusable => .ok (fallbackPredictionML text topk)
  | .probaRaises =>
    pyTryAll (.error .inferenceError)
      (fun _ => .ok (fallbackPredictionML text topk))
  | .vectorRaises =>
    pyTryAll (.error .inferenceError)
      (fun _ => .ok (fallbackPredictionML text topk))
  | .withProba f =>
    pyTryAll
      (do
        let rs ← mlBuildResults text (f (preprocessText text)) topk
        if rs.isEmpty then pure (fallbackPredictionML text topk) else pure rs)
      (fun _ => .ok (fallbackPredictionML text topk))
  | .vectorized f =>
    pyTryAll
      (do
        let rs ← mlBuildResults text (f (preprocessText text)) topk
        if rs.isEmpty then pure (fallbackPredictionML text topk) else pure rs)
      (fun _ => .ok (fallbackPredictionML text topk))

/-! ## `HuggingFacePredictor.predict_sdgs` (huggingface_predictor.py
lines 49-89)

The class body defines only `__init__`, `_load_model` and
`predict_sdgs`, and `__init__` sets only `model_url`, `model` and
`model_cache_path`; the helpers `_fallback_prediction` and
`_preprocess_text` (and `sdg_labels`, `_extract_keywords`,
`_generate_explanation`) that `predict_sdgs` invokes are nowhere
defined, so each such access raises `AttributeError`. -/

/-- The attributes actually defined on `HuggingFacePredictor`. -/
def hfPredictorHasAttr : String → Bool
  | "model" => true
  | "model_url" => true
  | "model_cache_path" => true
  | "_load_model" => true
  | "predict_sdgs" => true
  | _ => false

/-- Python attribute lookup on a `HuggingFacePredictor` instance. -/
def hfPredictorGetAttr (name : String) : Except PyErr Unit :=
  if hfPredictorHasAttr name then .ok () else .error .attributeError

/-- The call `self._fallback_prediction(text, top_k)`
(huggingface_predictor.py lines 53, 85, 89): the attribute lookup itself
raises, so no list is ever produced (the `.ok` branch is unreachable). -/
def hfPredictorFallback (text : String) (topk : Nat) :
    Except PyErr (List Candidate) :=
  match hfPredictorGetAttr "_fallback_prediction", text, topk with
  | .error e, _, _ => .error e
  | .ok _, _, _ => .ok []

/-- The call `self._preprocess_text(text)` (huggingface_predictor.py
line 57); again the lookup raises before anything runs. -/
def hfPredictorPreprocess (text : String) : Except PyErr String :=
  match hfPredictorGetAttr "_preprocess_text" with
  | .error e => .error e
  | .ok _ => .ok text

/-- `HuggingFacePredictor.predict_sdgs(text, top_k)`
(huggingface_predictor.py lines 49-89).  With no model, line 53 calls
the undefined `_fallback_prediction`.  With a model, the `try` block's
first statement (line 57) calls the undefined `_preprocess_text`; the
rest of the `try` block is unreachable, and the `except` handler (line
89) again calls the undefined `_fallback_prediction`, so the
`AttributeError` escapes the method. -/
def hfPredictorPredictSdgs (modelLoaded : Bool) (text : String) (topk : Nat) :
    Except PyErr (List Candidate) :=
  if modelLoaded = false then hfPredictorFallback text topk
  else
    pyTryAll
      (do
        let _ ← hfPredictorPreprocess text
        .ok [])
      (fun _ => hfPredictorFallback text topk)

/-! ## Spec-side predicates -/

/-- The `PredictionResult` invariant claimed by the spec for results
with at least one non-sentinel candidate: confidences non-increasing by
position, every confidence at least `0.05`, and no sentinel entry. -/
def resultInvariant (rs : List Candidate) : Prop :=
  rs.Pairwise (fun a b => b.confidence ≤ a.confidence) ∧
  ∀ c ∈ rs, 1/20 ≤ c.confidence ∧ c.sdgNumber ≠ 0

/-- The label-to-SDG mapping stated by the spec (and *not* performed by
the code): match the label's leading segment (text before the first
`" - "`) against the engine's own label ordering `SDG_LABELS`, and
return the 1-based identifier of the matching SDG. -/
def specLabelToSdgId (label : String) : Option Nat :=
  (List.range SDG_LABELS.length).findSome? (fun j =>
    if leadingSegment (SDG_LABELS.getD j "") = leadingSegment label then some (j + 1)
    else none)

/-- No two adjacent whitespace characters. -/
def noTwoWs (a b : Char) : Prop :=
  ¬(isPyWs a = true ∧ isPyWs b = true)

/-! # Lemmas -/

/-! ## The normalizer `_preprocess_text` -/

theorem pyLowerChar_cases (c : Char) :
    pyLowerChar c = c ∨ pyLowerChar c ∈
      ['a', 'b', 'c', 'd', 'e', 'f', 'g', 'h', 'i', 'j', 'k', 'l', 'm',
       'n', 'o', 'p', 'q', 'r', 's', 't', 'u', 'v', 'w', 'x', 'y', 'z'] := by
  unfold pyLowerChar
  split <;> first | (right; decide) | (left; rfl)

theorem pyLowerChar_of_lower (d : Char)
    (h : d ∈ ['a', 'b', 'c', 'd', 'e', 'f', 'g', 'h', 'i', 'j', 'k', 'l', 'm',
       'n', 'o', 'p', 'q', 'r', 's', 't', 'u', 'v', 'w', 'x', 'y', 'z']) :
    pyLowerChar d = d := by
  fin_cases h <;> rfl

theorem pyLowerChar_idem (c : Char) : pyLowerChar (pyLowerChar c) = pyLowerChar c := by
  rcases pyLowerChar_cases c with h | h
  · rw [h, h]
  · exact pyLowerChar_of_lower _ h

theorem mem_collapseWs : ∀ (l : List Char), ∀ c ∈ collapseWs l,
    c = ' ' ∨ (c ∈ l ∧ isPyWs c = false)
  | [] => by simp [collapseWs]
  | [a] => by
      intro c hc
      by_cases h : isPyWs a
      · simp only [collapseWs, if_pos h, List.mem_singleton] at hc
        exact Or.inl hc
      · simp only [collapseWs, if_neg h, List.mem_singleton] at hc
        subst hc
        exact Or.inr ⟨List.mem_singleton_self _, by simpa using h⟩
  | a :: b :: cs => by
      intro c hc
      by_cases hab : (isPyWs a && isPyWs b) = true
      · rw [collapseWs, if_pos hab] at hc
        rcases mem_collapseWs (b :: cs) c hc with h | ⟨h1, h2⟩
        · exact Or.inl h
        · exact Or.inr ⟨List.mem_cons_of_mem _ h1, h2⟩
      · rw [collapseWs, if_neg hab] at hc
        rcases List.mem_cons.mp hc with h | h
        · subst h
          by_cases ha : isPyWs a = true
          · exact Or.inl (by simp [ha])
          · have ha' : isPyWs a = false := by simpa using ha
            rw [if_neg ha]
            exact Or.inr ⟨List.mem_cons_self _ _, ha'⟩
        · rcases mem_collapseWs (b :: cs) c h with h' | ⟨h1, h2⟩
          · exact Or.inl h'
          · exact Or.inr ⟨List.mem_cons_of_mem _ h1, h2⟩

theorem head?_collapseWs_cons : ∀ (a : Char) (cs : List Char),
    (collapseWs (a :: cs)).head? = some (if isPyWs a then ' ' else a)
  | a, [] => by by_cases h : isPyWs a <;> simp [collapseWs, h]
  | a, b :: cs => by
      by_cases hab : (isPyWs a && isPyWs b) = true
      · rw [collapseWs, if_pos hab, head?_collapseWs_cons b cs]
        rcases Bool.and_eq_true_iff.mp hab with ⟨ha, hb⟩
        simp [ha, hb]
      · rw [collapseWs, if_neg hab]
        rfl

theorem chain'_collapseWs : ∀ (l : List Char), List.Chain' noTwoWs (collapseWs l)
  | [] => by simp [collapseWs]
  | [a] => by by_cases h : isPyWs a <;> simp [collapseWs, h]
  | a :: b :: cs => by
      by_cases hab : (isPyWs a && isPyWs b) = true
      · rw [collapseWs, if_pos hab]
        exact chain'_collapseWs (b :: cs)
      · rw [collapseWs, if_neg hab]
        rw [List.chain'_cons']
        refine ⟨?_, chain'_collapseWs (b :: cs)⟩
        intro y hy
        rw [head?_collapseWs_cons b cs, Option.mem_def, Option.some_inj] at hy
        subst hy
        have hnot := Bool.and_eq_true_iff.not.mp hab
        by_cases ha : isPyWs a = true
        · have hb : ¬ isPyWs b = true := fun hb => hnot ⟨ha, hb⟩
          simp only [if_pos ha, if_neg hb, noTwoWs]
          rintro ⟨_, hb'⟩
          exact hb hb'
        · simp only [if_neg ha, noTwoWs]
          rintro ⟨ha', _⟩
          exact ha ha'

theorem collapseWs_eq_self : ∀ (l : List Char), List.Chain' noTwoWs l →
    (∀ c ∈ l, isPyWs c = true → c = ' ') → collapseWs l = l
  | [] => by intros; rfl
  | [a] => by
      intro _ hws
      by_cases h : isPyWs a
      · rw [collapseWs, if_pos h, (hws a (List.mem_singleton_self a) h)]
      · rw [collapseWs, if_neg h]
  | a :: b :: cs => by
      intro hch hws
      have hR : noTwoWs a b := (List.chain'_cons.mp hch).1
      have hab : ¬ (isPyWs a && isPyWs b) = true := by
        intro h
        exact hR (Bool.and_eq_true_iff.mp h)
      rw [collapseWs, if_neg hab]
      have hhd : (if isPyWs a then ' ' else a) = a := by
        by_cases ha : isPyWs a
        · rw [if_pos ha, (hws a (List.mem_cons_self a _) ha)]
        · rw [if_neg ha]
      rw [hhd, collapseWs_eq_self (b :: cs) (List.chain'_cons.mp hch).2
        (fun c hc h => hws c (List.mem_cons_of_mem _ hc) h)]

theorem mem_dropWhile {p : Char → Bool} :
    ∀ (l : List Char), ∀ c ∈ l.dropWhile p, c ∈ l
  | [], c => by simp [List.dropWhile]
  | a :: l, c => by
      intro hc
      by_cases h : p a
      · rw [List.dropWhile_cons, if_pos h] at hc
        exact List.mem_cons_of_mem _ (mem_dropWhile l c hc)
      · rw [List.dropWhile_cons, if_neg h] at hc
        exact hc

theorem head?_dropWhile_not {p : Char → Bool} :
    ∀ (l : List Char) (c : Char), (l.dropWhile p).head? = some c → p c = false
  | [], c => by simp [List.dropWhile]
  | a :: l, c => by
      by_cases h : p a
      · rw [List.dropWhile_cons, if_pos h]
        exact head?_dropWhile_not l c
      · rw [List.dropWhile_cons, if_neg h]
        intro hc
        rw [List.head?_cons, Option.some_inj] at hc
        subst hc
        simpa using h

theorem getLast?_dropWhile {p : Char → Bool} :
    ∀ (l : List Char) (c : Char), (l.dropWhile p).getLast? = some c →
      l.getLast? = some c
  | [], c => by simp [List.dropWhile]
  | a :: l, c => by
      by_cases h : p a
      · rw [List.dropWhile_cons, if_pos h]
        intro hc
        have hne : l ≠ [] := by
          intro he
          subst he
          simp [List.dropWhile] at hc
        rcases List.exists_cons_of_ne_nil hne with ⟨b, l', rfl⟩
        rw [List.getLast?_cons_cons]
        exact getLast?_dropWhile (b :: l') c hc
      · rw [List.dropWhile_cons, if_neg h]
        exact fun hc => hc

theorem chain'_dropWhile {R : Char → Char → Prop} (p : Char → Bool) :
    ∀ (l : List Char), List.Chain' R l → List.Chain' R (l.dropWhile p)
  | [] => fun h => h
  | a :: l => fun h => by
      by_cases hp : p a
      · rw [List.dropWhile_cons, if_pos hp]
        exact chain'_dropWhile p l h.tail
      · rw [List.dropWhile_cons, if_neg hp]
        exact h

theorem noTwoWs_symm (a b : Char) (h : noTwoWs a b) : noTwoWs b a :=
  fun hab => h ⟨hab.2, hab.1⟩

theorem chain'_reverse_noTwoWs (l : List Char) (h : List.Chain' noTwoWs l) :
    List.Chain' noTwoWs l.reverse := by
  rw [List.chain'_reverse]
  exact List.Chain'.imp (fun a b hab => noTwoWs_symm a b hab) h

theorem mem_stripWs (l : List Char) (c : Char) (h : c ∈ stripWs l) : c ∈ l := by
  unfold stripWs at h
  rw [List.mem_reverse] at h
  have h1 := mem_dropWhile _ c h
  rw [List.mem_reverse] at h1
  exact mem_dropWhile _ c h1

theorem chain'_stripWs (l : List Char) (h : List.Chain' noTwoWs l) :
    List.Chain' noTwoWs (stripWs l) := by
  unfold stripWs
  exact chain'_reverse_noTwoWs _ (chain'_dropWhile _ _
    (chain'_reverse_noTwoWs _ (chain'_dropWhile _ _ h)))

theorem head?_stripWs (l : List Char) (c : Char)
    (h : (stripWs l).head? = some c) : isPyWs c = false := by
  unfold stripWs at h
  rw [List.head?_reverse] at h
  have h1 := getLast?_dropWhile _ c h
  rw [List.getLast?_reverse] at h1
  exact head?_dropWhile_not _ c h1

theorem getLast?_stripWs (l : List Char) (c : Char)
    (h : (stripWs l).getLast? = some c) : isPyWs c = false := by
  unfold stripWs at h
  rw [List.getLast?_reverse] at h
  exact head?_dropWhile_not _ c h

theorem dropWhile_eq_self_of_head {p : Char → Bool} (l : List Char)
    (h : ∀ c, l.head? = some c → p c = false) : l.dropWhile p = l := by
  cases l with
  | nil => rfl
  | cons a l =>
    rw [List.dropWhile_cons, if_neg]
    rw [h a (by rw [List.head?_cons])]
    simp

theorem stripWs_eq_self (l : List Char)
    (h1 : ∀ c, l.head? = some c → isPyWs c = false)
    (h2 : ∀ c, l.getLast? = some c → isPyWs c = false) : stripWs l = l := by
  unfold stripWs
  rw [dropWhile_eq_self_of_head l h1]
  rw [dropWhile_eq_self_of_head l.reverse
    (fun c hc => h2 c (by rwa [List.head?_reverse] at hc))]
  exact List.reverse_reverse l

theorem map_eq_self_of {α : Type} (f : α → α) :
    ∀ (l : List α), (∀ c ∈ l, f c = c) → l.map f = l
  | [] => fun _ => rfl
  | a :: l => fun h => by
      rw [List.map_cons, h a (List.mem_cons_self a l),
        map_eq_self_of f l (fun c hc => h c (List.mem_cons_of_mem _ hc))]

theorem mem_preprocessList (l : List Char) (c : Char) (h : c ∈ preprocessList l) :
    pyLowerChar c = c ∧ keepChar c = true ∧ (isPyWs c = true → c = ' ') := by
  have h1 : c ∈ collapseWs ((l.map pyLowerChar).filter keepChar) :=
    mem_stripWs _ c h
  rcases mem_collapseWs _ c h1 with rfl | ⟨h2, h3⟩
  · exact ⟨rfl, by decide, fun _ => rfl⟩
  · have h4 := List.mem_filter.mp h2
    rcases List.mem_map.mp h4.1 with ⟨d, _, rfl⟩
    refine ⟨pyLowerChar_idem d, h4.2, fun hw => ?_⟩
    rw [h3] at hw
    cases hw

theorem chain'_preprocessList (l : List Char) :
    List.Chain' noTwoWs (preprocessList l) :=
  chain'_stripWs _ (chain'_collapseWs _)

theorem preprocessList_idem (l : List Char) :
    preprocessList (preprocessList l) = preprocessList l := by
  have hmem := fun c hc => mem_preprocessList l c hc
  have h1 : (preprocessList l).map pyLowerChar = preprocessList l :=
    map_eq_self_of _ _ (fun c hc => (hmem c hc).1)
  have h2 : (preprocessList l).filter keepChar = preprocessList l :=
    List.filter_eq_self.mpr (fun c hc => (hmem c hc).2.1)
  have h3 : collapseWs (preprocessList l) = preprocessList l :=
    collapseWs_eq_self _ (chain'_preprocessList l) (fun c hc => (hmem c hc).2.2)
  have h4 : stripWs (preprocessList l) = preprocessList l :=
    stripWs_eq_self _
      (fun c hc => head?_stripWs _ c hc)
      (fun c hc => getLast?_stripWs _ c hc)
  have h0 : preprocessList (preprocessList l) =
      stripWs (collapseWs (((preprocessList l).map pyLowerChar).filter keepChar)) := rfl
  rw [h0, h1, h2, h3]
  exact h4

/-! ## Score arithmetic -/

theorem extractKeywordsIdx_length_le (text : String) (sdg : Nat) :
    (extractKeywordsIdx text sdg).length ≤ 5 := by
  unfold extractKeywordsIdx
  rw [List.length_take]
  exact min_le_left 5 _

theorem extractKeywordsML_length_le (text : String) (sdg : Nat) :
    (extractKeywordsML text sdg).length ≤ 5 := by
  unfold extractKeywordsML
  rw [List.length_take]
  exact min_le_left 5 _

theorem score_le_of_le_five (n : Nat) (hn : n ≤ 5) :
    (n : ℚ) * (15/100) ≤ 3/4 := by
  have h5 : (n : ℚ) ≤ 5 := by exact_mod_cast hn
  have := mul_le_mul_of_nonneg_right h5 (by norm_num : (0:ℚ) ≤ 15/100)
  linarith

theorem score_pos_of_ne_zero (n : Nat) (hn : n ≠ 0) :
    (0 : ℚ) < (n : ℚ) * (15/100) := by
  have h1 : (1 : ℚ) ≤ (n : ℚ) := by exact_mod_cast Nat.one_le_iff_ne_zero.mpr hn
  nlinarith

theorem score_ge_floor (n : Nat) (hn : n ≠ 0) :
    (15/100 : ℚ) ≤ (n : ℚ) * (15/100) := by
  have h1 : (1 : ℚ) ≤ (n : ℚ) := by exact_mod_cast Nat.one_le_iff_ne_zero.mpr hn
  nlinarith

theorem min85_score (n : Nat) (hn : n ≤ 5) :
    min ((85:ℚ)/100) ((n : ℚ) * (15/100)) = (n : ℚ) * (15/100) :=
  min_eq_right (le_trans (score_le_of_le_five n hn) (by norm_num))

theorem min80_score (n : Nat) (hn : n ≤ 5) :
    min ((80:ℚ)/100) ((n : ℚ) * (15/100)) = (n : ℚ) * (15/100) :=
  min_eq_right (le_trans (score_le_of_le_five n hn) (by norm_num))

/-! ## The score maps of the two rule-based fallbacks -/

theorem mem_sdgScoresIdx (text : String) (sdg : Nat) (s : ℚ)
    (h : (sdg, s) ∈ sdgScoresIdx text) :
    sdg ∈ List.range' 1 17 ∧ (extractKeywordsIdx text sdg).length ≠ 0 ∧
      s = min ((85:ℚ)/100) (((extractKeywordsIdx text sdg).length : ℚ) * (15/100)) := by
  rcases List.mem_filterMap.mp h with ⟨a, ha, hfa⟩
  by_cases hpos : (0:ℚ) < ((extractKeywordsIdx text a).length : ℚ) * (15/100)
  · rw [if_pos hpos, Option.some_inj, Prod.mk.injEq] at hfa
    obtain ⟨rfl, rfl⟩ := hfa
    refine ⟨ha, ?_, rfl⟩
    intro hzero
    rw [hzero] at hpos
    norm_num at hpos
  · rw [if_neg hpos] at hfa
    cases hfa

theorem sdgScoresIdx_mem (text : String) (sdg : Nat)
    (h1 : sdg ∈ List.range' 1 17)
    (h2 : (extractKeywordsIdx text sdg).length ≠ 0) :
    (sdg, min ((85:ℚ)/100) (((extractKeywordsIdx text sdg).length : ℚ) * (15/100)))
      ∈ sdgScoresIdx text := by
  refine List.mem_filterMap.mpr ⟨sdg, h1, ?_⟩
  rw [if_pos (score_pos_of_ne_zero _ h2)]

theorem mem_sdgScoresML (text : String) (sdg : Nat) (s : ℚ)
    (h : (sdg, s) ∈ sdgScoresML text) :
    sdg ∈ List.range' 1 17 ∧ (extractKeywordsML text sdg).length ≠ 0 ∧
      s = ((extractKeywordsML text sdg).length : ℚ) * (15/100) := by
  rcases List.mem_filterMap.mp h with ⟨a, ha, hfa⟩
  by_cases hpos : (0:ℚ) < ((extractKeywordsML text a).length : ℚ) * (15/100)
  · rw [if_pos hpos, Option.some_inj, Prod.mk.injEq] at hfa
    obtain ⟨rfl, rfl⟩ := hfa
    refine ⟨ha, ?_, rfl⟩
    intro hzero
    rw [hzero] at hpos
    norm_num at hpos
  · rw [if_neg hpos] at hfa
    cases hfa

theorem sdgScoresML_mem (text : String) (sdg : Nat)
    (h1 : sdg ∈ List.range' 1 17)
    (h2 : (extractKeywordsML text sdg).length ≠ 0) :
    (sdg, ((extractKeywordsML text sdg).length : ℚ) * (15/100)) ∈ sdgScoresML text := by
  refine List.mem_filterMap.mpr ⟨sdg, h1, ?_⟩
  rw [if_pos (score_pos_of_ne_zero _ h2)]

/-! ## Candidates produced by the rule-based fallbacks -/

theorem mem_sortedSdgsIdx (text : String) (topk : Nat) (p : Nat × ℚ)
    (hp : p ∈ sortedSdgsIdx text topk) : p ∈ sdgScoresIdx text := by
  unfold sortedSdgsIdx at hp
  have h1 := (List.take_sublist _ _).subset hp
  rwa [List.mem_insertionSort] at h1

theorem mem_sortedSdgsML (text : String) (topk : Nat) (p : Nat × ℚ)
    (hp : p ∈ sortedSdgsML text topk) : p ∈ sdgScoresML text := by
  unfold sortedSdgsML at hp
  have h1 := (List.take_sublist _ _).subset hp
  rwa [List.mem_insertionSort] at h1

theorem sorted_sortedSdgsIdx (text : String) (topk : Nat) :
    (sortedSdgsIdx text topk).Pairwise (fun a b : Nat × ℚ => b.2 ≤ a.2) := by
  letI : IsTotal (Nat × ℚ) (fun a b => b.2 ≤ a.2) := ⟨fun a b => le_total b.2 a.2⟩
  letI : IsTrans (Nat × ℚ) (fun a b => b.2 ≤ a.2) :=
    ⟨fun _ _ _ h1 h2 => le_trans h2 h1⟩
  exact List.Pairwise.sublist (List.take_sublist _ _)
    (List.sorted_insertionSort _ _)

theorem sorted_sortedSdgsML (text : String) (topk : Nat) :
    (sortedSdgsML text topk).Pairwise (fun a b : Nat × ℚ => b.2 ≤ a.2) := by
  letI : IsTotal (Nat × ℚ) (fun a b => b.2 ≤ a.2) := ⟨fun a b => le_total b.2 a.2⟩
  letI : IsTrans (Nat × ℚ) (fun a b => b.2 ≤ a.2) :=
    ⟨fun _ _ _ h1 h2 => le_trans h2 h1⟩
  exact List.Pairwise.sublist (List.take_sublist _ _)
    (List.sorted_insertionSort _ _)

theorem fallbackIdx_ne_nil (text : String) (topk : Nat) :
    fallbackPredictionIdx text topk ≠ [] := by
  show (if ((sortedSdgsIdx text topk).map (candIdx text)).isEmpty
      then [sentinelIdx] else (sortedSdgsIdx text topk).map (candIdx text)) ≠ []
  cases (sortedSdgsIdx text topk).map (candIdx text) <;> simp

theorem fallbackML_ne_nil (text : String) (topk : Nat) :
    fallbackPredictionML text topk ≠ [] := by
  show (if ((sortedSdgsML text topk).map (candML text)).isEmpty
      then [sentinelML] else (sortedSdgsML text topk).map (candML text)) ≠ []
  cases (sortedSdgsML text topk).map (candML text) <;> simp

theorem mem_fallbackIdx (text : String) (topk : Nat) (c : Candidate)
    (h : c ∈ fallbackPredictionIdx text topk) :
    c = sentinelIdx ∨ ∃ p, p ∈ sdgScoresIdx text ∧ c = candIdx text p := by
  have h' : c ∈ (if ((sortedSdgsIdx text topk).map (candIdx text)).isEmpty
      then [sentinelIdx] else (sortedSdgsIdx text topk).map (candIdx text)) := h
  split at h'
  · exact Or.inl (List.mem_singleton.mp h')
  · rcases List.mem_map.mp h' with ⟨p, hp, rfl⟩
    exact Or.inr ⟨p, mem_sortedSdgsIdx text topk p hp, rfl⟩

theorem mem_fallbackML (text : String) (topk : Nat) (c : Candidate)
    (h : c ∈ fallbackPredictionML text topk) :
    c = sentinelML ∨ ∃ p, p ∈ sdgScoresML text ∧ c = candML text p := by
  have h' : c ∈ (if ((sortedSdgsML text topk).map (candML text)).isEmpty
      then [sentinelML] else (sortedSdgsML text topk).map (candML text)) := h
  split at h'
  · exact Or.inl (List.mem_singleton.mp h')
  · rcases List.mem_map.mp h' with ⟨p, hp, rfl⟩
    exact Or.inr ⟨p, mem_sortedSdgsML text topk p hp, rfl⟩

theorem sdg_pos_of_mem_range' (sdg : Nat) (h : sdg ∈ List.range' 1 17) :
    sdg ≠ 0 := by
  rw [List.mem_range'_1] at h
  omega

theorem fallbackIdx_cases (text : String) (topk : Nat) :
    fallbackPredictionIdx text topk = [sentinelIdx] ∨
      resultInvariant (fallbackPredictionIdx text topk) := by
  have hm : fallbackPredictionIdx text topk =
      (if ((sortedSdgsIdx text topk).map (candIdx text)).isEmpty
       then [sentinelIdx] else (sortedSdgsIdx text topk).map (candIdx text)) := rfl
  rw [hm]
  split
  · exact Or.inl rfl
  · right
    constructor
    · refine List.pairwise_map.mpr ?_
      exact (sorted_sortedSdgsIdx text topk).imp (fun hab => hab)
    · intro c hc
      rcases List.mem_map.mp hc with ⟨p, hp, rfl⟩
      obtain ⟨psdg, ps⟩ := p
      rcases mem_sdgScoresIdx text psdg ps (mem_sortedSdgsIdx text topk _ hp)
        with ⟨hr, hn, hs⟩
      constructor
      · show 1/20 ≤ ps
        rw [hs]
        refine le_min (by norm_num) ?_
        exact le_trans (by norm_num) (score_ge_floor _ hn)
      · exact sdg_pos_of_mem_range' psdg hr

theorem fallbackML_cases (text : String) (topk : Nat) :
    fallbackPredictionML text topk = [sentinelML] ∨
      resultInvariant (fallbackPredictionML text topk) := by
  have hm : fallbackPredictionML text topk =
      (if ((sortedSdgsML text topk).map (candML text)).isEmpty
       then [sentinelML] else (sortedSdgsML text topk).map (candML text)) := rfl
  rw [hm]
  split
  · exact Or.inl rfl
  · right
    constructor
    · refine List.pairwise_map.mpr ?_
      refine (sorted_sortedSdgsML text topk).imp ?_
      intro a b hab
      show min (80/100) b.2 ≤ min (80/100) a.2
      exact min_le_min le_rfl hab
    · intro c hc
      rcases List.mem_map.mp hc with ⟨p, hp, rfl⟩
      obtain ⟨psdg, ps⟩ := p
      rcases mem_sdgScoresML text psdg ps (mem_sortedSdgsML text topk _ hp)
        with ⟨hr, hn, hs⟩
      constructor
      · show 1/20 ≤ min (80/100) ps
        rw [hs]
        refine le_min (by norm_num) ?_
        exact le_trans (by norm_num) (score_ge_floor _ hn)
      · exact sdg_pos_of_mem_range' psdg hr

/-! ## The local-model path -/

theorem argsort_pairwise (probs : List ℚ) (topk : Nat) :
    (argsortDescTake probs topk).Pairwise
      (fun i j => probs.getD j 0 ≤ probs.getD i 0) := by
  unfold argsortDescTake
  refine List.Pairwise.sublist (List.take_sublist _ _) ?_
  rw [List.pairwise_reverse]
  letI : IsTotal Nat (fun i j => probs.getD i 0 ≤ probs.getD j 0) :=
    ⟨fun a b => le_total _ _⟩
  letI : IsTrans Nat (fun i j => probs.getD i 0 ≤ probs.getD j 0) :=
    ⟨fun _ _ _ => le_trans⟩
  exact (List.sorted_insertionSort _ _).imp (fun h => h)

theorem mlBuildResults_invariant (text : String) (probs : List ℚ) (topk : Nat)
    (rs : List Candidate) (h : mlBuildResults text probs topk = .ok rs) :
    resultInvariant rs := by
  simp only [mlBuildResults] at h
  split at h
  · rw [Except.ok.injEq] at h
    subst h
    constructor
    · refine List.pairwise_map.mpr ?_
      exact (List.Pairwise.filter _ (argsort_pairwise probs topk)).imp
        (fun hab => hab)
    · intro c hc
      rcases List.mem_map.mp hc with ⟨i, hi, rfl⟩
      have hkeep := List.of_mem_filter hi
      constructor
      · show 1/20 ≤ probs.getD i 0
        exact le_of_not_lt (of_decide_eq_true hkeep)
      · exact Nat.succ_ne_zero i
  · cases h

theorem mlPredict_cases (model : MLModel) (text : String) (topk : Nat)
    (rs : List Candidate) (h : mlPredict model text topk = .ok rs) :
    rs = [sentinelML] ∨ resultInvariant rs := by
  have hfb : ∀ rs', fallbackPredictionML text topk = rs' →
      (rs' = [sentinelML] ∨ resultInvariant rs') := by
    intro rs' he
    rw [← he]
    exact fallbackML_cases text topk
  cases model with
  | noModel =>
    exact hfb rs (by injection h)
  | unusable =>
    exact hfb rs (by injection h)
  | probaRaises =>
    exact hfb rs (by injection h)
  | vectorRaises =>
    exact hfb rs (by injection h)
  | withProba f =>
    simp only [mlPredict] at h
    cases hb : mlBuildResults text (f (preprocessText text)) topk with
    | error e =>
      rw [hb] at h
      exact hfb rs (by injection h)
    | ok rs' =>
      rw [hb] at h
      cases hE : rs'.isEmpty with
      | true =>
        rw [show (Except.ok rs' : Except PyErr (List Candidate)) >>= (fun rs =>
            if rs.isEmpty then pure (fallbackPredictionML text topk) else pure rs) =
            (if rs'.isEmpty then pure (fallbackPredictionML text topk)
             else pure rs' : Except PyErr (List Candidate)) from rfl, hE] at h
        exact hfb rs (by injection h)
      | false =>
        rw [show (Except.ok rs' : Except PyErr (List Candidate)) >>= (fun rs =>
            if rs.isEmpty then pure (fallbackPredictionML text topk) else pure rs) =
            (if rs'.isEmpty then pure (fallbackPredictionML text topk)
             else pure rs' : Except PyErr (List Candidate)) from rfl, hE] at h
        have : rs' = rs := by injection h
        subst this
        exact Or.inr (mlBuildResults_invariant text _ topk rs' hb)
  | vectorized f =>
    simp only [mlPredict] at h
    cases hb : mlBuildResults text (f (preprocessText text)) topk with
    | error e =>
      rw [hb] at h
      exact hfb rs (by injection h)
    | ok rs' =>
      rw [hb] at h
      cases hE : rs'.isEmpty with
      | true =>
        rw [show (Except.ok rs' : Except PyErr (List Candidate)) >>= (fun rs =>
            if rs.isEmpty then pure (fallbackPredictionML text topk) else pure rs) =
            (if rs'.isEmpty then pure (fallbackPredictionML text topk)
             else pure rs' : Except PyErr (List Candidate)) from rfl, hE] at h
        exact hfb rs (by injection h)
      | false =>
        rw [show (Except.ok rs' : Except PyErr (List Candidate)) >>= (fun rs =>
            if rs.isEmpty then pure (fallbackPredictionML text topk) else pure rs) =
            (if rs'.isEmpty then pure (fallbackPredictionML text topk)
             else pure rs' : Except PyErr (List Candidate)) from rfl, hE] at h
        have : rs' = rs := by injection h
        subst this
        exact Or.inr (mlBuildResults_invariant text _ topk rs' hb)

theorem mlPredict_ok (model : MLModel) (text : String) (topk : Nat) :
    ∃ rs, mlPredict model text topk = .ok rs := by
  cases model with
  | noModel => exact ⟨_, rfl⟩
  | unusable => exact ⟨_, rfl⟩
  | probaRaises => exact ⟨_, rfl⟩
  | vectorRaises => exact ⟨_, rfl⟩
  | withProba f =>
    simp only [mlPredict]
    cases hb : mlBuildResults text (f (preprocessText text)) topk with
    | error e => exact ⟨_, rfl⟩
    | ok rs' =>
      cases hE : rs'.isEmpty with
      | true =>
        refine ⟨fallbackPredictionML text topk, ?_⟩
        show pyTryAll (if rs'.isEmpty then _ else _) _ = _
        rw [hE]
        rfl
      | false =>
        refine ⟨rs', ?_⟩
        show pyTryAll (if rs'.isEmpty then _ else _) _ = _
        rw [hE]
        rfl
  | vectorized f =>
    simp only [mlPredict]
    cases hb : mlBuildResults text (f (preprocessText text)) topk with
    | error e => exact ⟨_, rfl⟩
    | ok rs' =>
      cases hE : rs'.isEmpty with
      | true =>
        refine ⟨fallbackPredictionML text topk, ?_⟩
        show pyTryAll (if rs'.isEmpty then _ else _) _ = _
        rw [hE]
        rfl
      | false =>
        refine ⟨rs', ?_⟩
        show pyTryAll (if rs'.isEmpty then _ else _) _ = _
        rw [hE]
        rfl

/-! ## The remote zero-shot path -/

theorem predictSdgsWithHf_noToken (env : HfEnv) (text : String) (topk : Nat)
    (h : env.tokenSet = false) :
    predictSdgsWithHf env text topk = .ok (fallbackPredictionIdx text topk) := by
  unfold predictSdgsWithHf
  rw [if_pos h]

theorem predictSdgsWithHf_timeout (env : HfEnv) (text : String) (topk : Nat)
    (ht : env.tokenSet = true)
    (hp : env.post (hfRemoteInput text) = .timeout) :
    predictSdgsWithHf env text topk = .ok (fallbackPredictionIdx text topk) := by
  unfold predictSdgsWithHf
  rw [if_neg (by simp [ht]), hp]
  rfl

theorem predictSdgsWithHf_raised (env : HfEnv) (text : String) (topk : Nat)
    (ht : env.tokenSet = true)
    (hp : env.post (hfRemoteInput text) = .raised) :
    predictSdgsWithHf env text topk = .ok (fallbackPredictionIdx text topk) := by
  unfold predictSdgsWithHf
  rw [if_neg (by simp [ht]), hp]
  rfl

theorem predictSdgsWithHf_non200 (env : HfEnv) (text : String) (topk : Nat)
    (status : Nat) (body : JsonOutcome) (ht : env.tokenSet = true)
    (hp : env.post (hfRemoteInput text) = .resp status body)
    (hs : status ≠ 200) :
    predictSdgsWithHf env text topk = .ok (fallbackPredictionIdx text topk) := by
  unfold predictSdgsWithHf
  rw [if_neg (by simp [ht]), hp]
  show pyTryAll
      (if status = 200 then
        (match body with
         | .jsonFail => Except.error PyErr.jsonDecodeError
         | .jsonOk labels scores => hfSuccessResults text topk labels scores)
       else if status = 503 then Except.ok (fallbackPredictionIdx text topk)
       else Except.ok (fallbackPredictionIdx text topk))
      (fun _ => Except.ok (fallbackPredictionIdx text topk)) = _
  rw [if_neg hs]
  by_cases h5 : status = 503
  · rw [if_pos h5]
    rfl
  · rw [if_neg h5]
    rfl

theorem predictSdgsWithHf_jsonFail (env : HfEnv) (text : String) (topk : Nat)
    (ht : env.tokenSet = true)
    (hp : env.post (hfRemoteInput text) = .resp 200 .jsonFail) :
    predictSdgsWithHf env text topk = .ok (fallbackPredictionIdx text topk) := by
  unfold predictSdgsWithHf
  rw [if_neg (by simp [ht]), hp]
  rfl

theorem predictSdgsWithHf_success (env : HfEnv) (text : String) (topk : Nat)
    (labels : List String) (scores : List ℚ) (ht : env.tokenSet = true)
    (hp : env.post (hfRemoteInput text) = .resp 200 (.jsonOk labels scores))
    (hl : min topk labels.length ≤ scores.length) :
    predictSdgsWithHf env text topk =
      .ok ((List.range (min topk labels.length)).map (candHf text labels scores)) := by
  unfold predictSdgsWithHf
  rw [if_neg (by simp [ht]), hp]
  show pyTryAll
      (if min topk labels.length ≤ scores.length then
        Except.ok ((List.range (min topk labels.length)).map (candHf text labels scores))
       else Except.error PyErr.indexError)
      (fun _ => Except.ok (fallbackPredictionIdx text topk)) = _
  rw [if_pos hl]
  rfl

theorem predictSdgsWithHf_ok (env : HfEnv) (text : String) (topk : Nat) :
    ∃ rs, predictSdgsWithHf env text topk = .ok rs := by
  by_cases ht : env.tokenSet = false
  · exact ⟨_, predictSdgsWithHf_noToken env text topk ht⟩
  · have ht' : env.tokenSet = true := by
      cases henv : env.tokenSet
      · exact absurd henv ht
      · rfl
    cases hp : env.post (hfRemoteInput text) with
    | timeout => exact ⟨_, predictSdgsWithHf_timeout env text topk ht' hp⟩
    | raised => exact ⟨_, predictSdgsWithHf_raised env text topk ht' hp⟩
    | resp status body =>
      by_cases hs : status = 200
      · subst hs
        cases body with
        | jsonFail => exact ⟨_, predictSdgsWithHf_jsonFail env text topk ht' hp⟩
        | jsonOk labels scores =>
          by_cases hl : min topk labels.length ≤ scores.length
          · exact ⟨_, predictSdgsWithHf_success env text topk labels scores ht' hp hl⟩
          · refine ⟨fallbackPredictionIdx text topk, ?_⟩
            unfold predictSdgsWithHf
            rw [if_neg (by simp [ht']), hp]
            show pyTryAll
                (if min topk labels.length ≤ scores.length then
                  Except.ok ((List.range (min topk labels.length)).map
                    (candHf text labels scores))
                 else Except.error PyErr.indexError)
                (fun _ => Except.ok (fallbackPredictionIdx text topk)) = _
            rw [if_neg hl]
            rfl
      · exact ⟨_, predictSdgsWithHf_non200 env text topk status body ht' hp hs⟩

theorem pyLower_idem (s : String) : pyLower (pyLower s) = pyLower s := by
  show (⟨(s.data.map pyLowerChar).map pyLowerChar⟩ : String) = _
  rw [List.map_map]
  exact congrArg String.mk
    (List.map_congr_left (fun c _ => pyLowerChar_idem c))

theorem extractKeywordsIdx_lower (text : String) (sdg : Nat) :
    extractKeywordsIdx (pyLower text) sdg = extractKeywordsIdx text sdg := by
  unfold extractKeywordsIdx
  rw [pyLower_idem]

/-! # Claim theorems -/

/-- C8: for every text, the normalizer `_preprocess_text` (lower-case,
strip characters outside the Latin alphabet and whitespace, collapse
whitespace runs to a single space, trim the ends) is idempotent; it is a
total function and maps the empty string to the empty string. -/
theorem c8_normalize_idempotent :
    (∀ t : String, preprocessText (preprocessText t) = preprocessText t) ∧
    preprocessText "" = "" := by
  constructor
  · intro t
    show (⟨preprocessList (preprocessText t).data⟩ : String) = _
    have hdata : (preprocessText t).data = preprocessList t.data := rfl
    rw [hdata, preprocessList_idem]
    rfl
  · rfl

/-- C9: `HuggingFacePredictor.predict_sdgs` raises `AttributeError` on
every input and never returns a result, whether or not the model
artifact is loaded: the helpers it invokes (`_fallback_prediction`,
`_preprocess_text`, ...) are not defined on the class, and the fallback
call inside its own exception handler is itself undefined, so the error
escapes the method. -/
theorem c9_hf_predictor_always_raises (modelLoaded : Bool) (text : String)
    (topk : Nat) :
    hfPredictorPredictSdgs modelLoaded text topk = .error .attributeError := by
  cases modelLoaded <;> rfl

/-- C3 (counterexample): the claim "a classification call returns a
result list and never raises an exception past the prediction boundary"
is false for `HuggingFacePredictor.predict_sdgs` (cited by the claim):
on the concrete input "clean water" it raises `AttributeError` both with
and without a loaded model, returning no list. -/
theorem c3_counterexample :
    hfPredictorPredictSdgs false "clean water" 3 = .error .attributeError ∧
    hfPredictorPredictSdgs true "clean water" 3 = .error .attributeError :=
  ⟨rfl, rfl⟩

/-- C3 (amended): the classification entry points actually wired into
the app — `predict_sdgs_with_hf` (api/index.py) and
`ModelLoader.predict_sdgs` — return a result list for every input and
every combination of tier availability and failure, never raising; when
the remote tier is unavailable (no token) and the local tier is
unavailable (no model) the result is exactly the rule-based fallback,
which degrades to the sentinel.  (The unused
`HuggingFacePredictor.predict_sdgs` raises, see the counterexample.) -/
theorem c3_no_raise_amended :
    (∀ (env : HfEnv) (text : String) (topk : Nat),
        ∃ rs, predictSdgsWithHf env text topk = .ok rs) ∧
    (∀ (model : MLModel) (text : String) (topk : Nat),
        ∃ rs, mlPredict model text topk = .ok rs) ∧
    (∀ (env : HfEnv) (text : String) (topk : Nat), env.tokenSet = false →
        predictSdgsWithHf env text topk = .ok (fallbackPredictionIdx text topk)) ∧
    (∀ (text : String) (topk : Nat),
        mlPredict .noModel text topk = .ok (fallbackPredictionML text topk)) :=
  ⟨predictSdgsWithHf_ok, mlPredict_ok, predictSdgsWithHf_noToken,
    fun _ _ => rfl⟩

/-- C3 (witness). -/
theorem c3_witness :
    predictSdgsWithHf ⟨false, fun _ => .timeout⟩ "climate" 3 =
      .ok (fallbackPredictionIdx "climate" 3) :=
  c3_no_raise_amended.2.2.1 ⟨false, fun _ => .timeout⟩ "climate" 3 rfl

/-- C1 (counterexample): a successful remote-tier call passes the raw
API scores through with no 0.05 floor: with a response score of 0.01 the
returned result is a single non-sentinel candidate (sdg 1) whose
confidence 0.01 is below the claimed floor 0.05. -/
theorem c1_counterexample :
    (predictSdgsWithHf
        ⟨true, fun _ => .resp 200
          (.jsonOk ["No Poverty - ending poverty in all its forms"] [1/100])⟩
        "some text" 3).map (fun rs => rs.map (fun c => (c.sdgNumber, c.confidence)))
      = .ok [(1, 1/100)] ∧ ¬ ((1:ℚ)/20 ≤ 1/100) := by
  exact ⟨rfl, by norm_num⟩

/-- C1 (amended): for results of the local tier
(`ModelLoader.predict_sdgs`, any model state, including its rule-based
fallback) and of the `api/index.py` rule-based fallback, the claimed
invariant holds: the result is either exactly the sentinel singleton or
a list of non-sentinel candidates whose confidences are ≥ 0.05 and
non-increasing by position.  The remote tier does not enforce the floor
(see the counterexample). -/
theorem c1_invariant_amended :
    (∀ (model : MLModel) (text : String) (topk : Nat) (rs : List Candidate),
        mlPredict model text topk = .ok rs →
        rs = [sentinelML] ∨ resultInvariant rs) ∧
    (∀ (text : String) (topk : Nat),
        fallbackPredictionIdx text topk = [sentinelIdx] ∨
          resultInvariant (fallbackPredictionIdx text topk)) :=
  ⟨mlPredict_cases, fallbackIdx_cases⟩

/-- C1 (witness). -/
theorem c1_witness :
    fallbackPredictionML "" 3 = [sentinelML] ∨
      resultInvariant (fallbackPredictionML "" 3) :=
  c1_invariant_amended.1 .noModel "" 3 (fallbackPredictionML "" 3) rfl

/-- C2 (counterexample): with a successful response whose top label
names SDG 13 ("Climate Action"), the code attaches `sdg_number = 1`
(the label's rank position in the response), whereas matching the
label's leading segment against the engine's own label ordering — the
mapping the claim describes — yields identifier 13. -/
theorem c2_counterexample :
    (predictSdgsWithHf
        ⟨true, fun _ => .resp 200
          (.jsonOk ["Climate Action - taking urgent action to combat climate change"]
            [9/10])⟩
        "some text" 3).map (fun rs => rs.map Candidate.sdgNumber) = .ok [1] ∧
    specLabelToSdgId
        "Climate Action - taking urgent action to combat climate change" =
      some 13 ∧ (1 : Nat) ≠ 13 := by
  refine ⟨rfl, by decide, by decide⟩

/-- C2 (amended): on a successful remote response, the candidate at
rank i carries `sdg_number = i + 1` — its rank position in the
response — and `sdg_name` = the label's leading segment (text before
the first " - "); no re-matching of the label text back to the engine's
own label ordering is performed. -/
theorem c2_rank_mapping_amended (text : String) (topk : Nat)
    (labels : List String) (scores : List ℚ)
    (h : min topk labels.length ≤ scores.length) :
    ((hfSuccessResults text topk labels scores).map
        (fun rs => rs.map (fun c => (c.sdgNumber, c.sdgName))) =
      .ok ((List.range (min topk labels.length)).map
        (fun i => (i + 1, leadingSegment (labels.getD i ""))))) ∧
    (∀ env : HfEnv, env.tokenSet = true →
        env.post (hfRemoteInput text) = .resp 200 (.jsonOk labels scores) →
        predictSdgsWithHf env text topk =
          hfSuccessResults text topk labels scores) := by
  constructor
  · unfold hfSuccessResults
    rw [if_pos h]
    show Except.ok ((List.map (candHf text labels scores)
        (List.range (min topk labels.length))).map
          (fun c => (c.sdgNumber, c.sdgName))) = _
    rw [Except.ok.injEq, List.map_map]
    rfl
  · intro env ht hp
    rw [predictSdgsWithHf_success env text topk labels scores ht hp h]
    unfold hfSuccessResults
    rw [if_pos h]

/-- C2 (witness). -/
theorem c2_witness :
    ((hfSuccessResults "t" 2 ["A - B", "C"] [1/2, 1/3]).map
        (fun rs => rs.map (fun c => (c.sdgNumber, c.sdgName))) =
      .ok ((List.range (min 2 (["A - B", "C"] : List String).length)).map
        (fun i => (i + 1, leadingSegment ((["A - B", "C"] : List String).getD i ""))))) :=
  (c2_rank_mapping_amended "t" 2 ["A - B", "C"] [1/2, 1/3] (by decide)).1

/-- C4: in both rule-based fallbacks the score assigned to SDG i equals
min(0.85, 0.15 × n), where n is the number of that SDG's keywords
matched in the text, and SDGs with n = 0 are omitted from the score map
entirely.  (`ModelLoader._fallback_prediction` writes `min(0.8, score)`
for the confidence; the value is the same because n ≤ 5.) -/
theorem c4_rule_scores (text : String) (sdg : Nat) (topk : Nat) :
    (∀ s : ℚ, (sdg, s) ∈ sdgScoresIdx text →
        s = min ((85:ℚ)/100)
          (((extractKeywordsIdx text sdg).length : ℚ) * (15/100))) ∧
    ((extractKeywordsIdx text sdg).length = 0 →
        ∀ s : ℚ, (sdg, s) ∉ sdgScoresIdx text) ∧
    (sdg ∈ List.range' 1 17 → (extractKeywordsIdx text sdg).length ≠ 0 →
        (sdg, min ((85:ℚ)/100)
          (((extractKeywordsIdx text sdg).length : ℚ) * (15/100)))
          ∈ sdgScoresIdx text) ∧
    (∀ c ∈ fallbackPredictionIdx text topk, c.sdgNumber ≠ 0 →
        c.confidence = min ((85:ℚ)/100)
          (((extractKeywordsIdx text c.sdgNumber).length : ℚ) * (15/100))) ∧
    (∀ c ∈ fallbackPredictionML text topk, c.sdgNumber ≠ 0 →
        c.confidence = min ((85:ℚ)/100)
          (((extractKeywordsML text c.sdgNumber).length : ℚ) * (15/100))) := by
  refine ⟨?_, ?_, ?_, ?_, ?_⟩
  · intro s h
    exact (mem_sdgScoresIdx text sdg s h).2.2
  · intro h0 s h
    exact (mem_sdgScoresIdx text sdg s h).2.1 h0
  · intro h1 h2
    exact sdgScoresIdx_mem text sdg h1 h2
  · intro c hc hne
    rcases mem_fallbackIdx text topk c hc with rfl | ⟨p, hp, rfl⟩
    · exact absurd rfl hne
    · obtain ⟨psdg, ps⟩ := p
      exact (mem_sdgScoresIdx text psdg ps hp).2.2
  · intro c hc hne
    rcases mem_fallbackML text topk c hc with rfl | ⟨p, hp, rfl⟩
    · exact absurd rfl hne
    · obtain ⟨psdg, ps⟩ := p
      rcases mem_sdgScoresML text psdg ps hp with ⟨_, hn, hs⟩
      show min ((80:ℚ)/100) ps =
        min ((85:ℚ)/100) (((extractKeywordsML text psdg).length : ℚ) * (15/100))
      rw [hs, min80_score _ (extractKeywordsML_length_le text psdg),
        min85_score _ (extractKeywordsML_length_le text psdg)]

/-- C4 (witness): the text "poverty and income" matches exactly the
keywords "poverty" and "income" for SDG 1, and its rule-based score is
0.30. -/
theorem c4_witness :
    ((1 : Nat), min ((85:ℚ)/100)
        (((extractKeywordsIdx "poverty and income" 1).length : ℚ) * (15/100)))
      ∈ sdgScoresIdx "poverty and income" ∧
    extractKeywordsIdx "poverty and income" 1 = ["poverty", "income"] ∧
    min ((85:ℚ)/100)
        (((extractKeywordsIdx "poverty and income" 1).length : ℚ) * (15/100))
      = 3/10 := by
  refine ⟨(c4_rule_scores "poverty and income" 1 3).2.2.1 (by decide) (by decide),
    by decide, ?_⟩
  have h : (extractKeywordsIdx "poverty and income" 1).length = 2 := by decide
  rw [h]
  norm_num

/-- C10: the keyword matcher returns at most 5 keywords, so the raw
rule-based score 0.15 × n never exceeds 0.75; the stored score equals
the raw score (the `min(0.85, ·)` cap is never the binding value) and
every rule-based candidate's confidence is at most 0.75. -/
theorem c10_cap_never_binds (text : String) (sdg : Nat) (topk : Nat) :
    (extractKeywordsIdx text sdg).length ≤ 5 ∧
    (extractKeywordsML text sdg).length ≤ 5 ∧
    (∀ s : ℚ, (sdg, s) ∈ sdgScoresIdx text →
        s = ((extractKeywordsIdx text sdg).length : ℚ) * (15/100) ∧ s ≤ 3/4) ∧
    (∀ c ∈ fallbackPredictionIdx text topk, c.confidence ≤ 3/4) ∧
    (∀ c ∈ fallbackPredictionML text topk, c.confidence ≤ 3/4) := by
  refine ⟨extractKeywordsIdx_length_le text sdg,
    extractKeywordsML_length_le text sdg, ?_, ?_, ?_⟩
  · intro s h
    rcases mem_sdgScoresIdx text sdg s h with ⟨_, _, hs⟩
    rw [hs, min85_score _ (extractKeywordsIdx_length_le text sdg)]
    exact ⟨rfl, score_le_of_le_five _ (extractKeywordsIdx_length_le text sdg)⟩
  · intro c hc
    rcases mem_fallbackIdx text topk c hc with rfl | ⟨p, hp, rfl⟩
    · show (0:ℚ) ≤ 3/4
      norm_num
    · obtain ⟨psdg, ps⟩ := p
      rcases mem_sdgScoresIdx text psdg ps hp with ⟨_, _, hs⟩
      show ps ≤ 3/4
      rw [hs, min85_score _ (extractKeywordsIdx_length_le text psdg)]
      exact score_le_of_le_five _ (extractKeywordsIdx_length_le text psdg)
  · intro c hc
    rcases mem_fallbackML text topk c hc with rfl | ⟨p, hp, rfl⟩
    · show (0:ℚ) ≤ 3/4
      norm_num
    · obtain ⟨psdg, ps⟩ := p
      rcases mem_sdgScoresML text psdg ps hp with ⟨_, _, hs⟩
      show min ((80:ℚ)/100) ps ≤ 3/4
      refine le_trans (min_le_right _ _) ?_
      rw [hs]
      exact score_le_of_le_five _ (extractKeywordsML_length_le text psdg)

/-- C10 (witness). -/
theorem c10_witness :
    min ((85:ℚ)/100) (((extractKeywordsIdx "poverty" 1).length : ℚ) * (15/100)) =
      ((extractKeywordsIdx "poverty" 1).length : ℚ) * (15/100) ∧
    min ((85:ℚ)/100) (((extractKeywordsIdx "poverty" 1).length : ℚ) * (15/100))
      ≤ 3/4 :=
  (c10_cap_never_binds "poverty" 1 3).2.2.1 _
    (sdgScoresIdx_mem "poverty" 1 (by decide) (by decide))

/-- C5: when zero keywords match against any of the 17 SDG keyword sets
and no higher tier produces a candidate (no token, no model), the result
is exactly the single sentinel candidate: sdg 0, confidence 0.0, empty
matched_keywords, explanation "No SDGs detected with sufficient
confidence". -/
theorem c5_sentinel (text : String) (topk : Nat)
    (hIdx : ∀ sdg ∈ List.range' 1 17, extractKeywordsIdx text sdg = [])
    (hML : ∀ sdg ∈ List.range' 1 17, extractKeywordsML text sdg = []) :
    fallbackPredictionIdx text topk = [sentinelIdx] ∧
    fallbackPredictionML text topk = [sentinelML] ∧
    predictSdgsWithHf ⟨false, fun _ => .timeout⟩ text topk = .ok [sentinelIdx] ∧
    mlPredict .noModel text topk = .ok [sentinelML] := by
  have hsIdx : sdgScoresIdx text = [] := by
    refine List.filterMap_eq_nil_iff.mpr ?_
    intro sdg hs
    rw [hIdx sdg hs]
    rw [if_neg]
    norm_num
  have hsML : sdgScoresML text = [] := by
    refine List.filterMap_eq_nil_iff.mpr ?_
    intro sdg hs
    rw [hML sdg hs]
    rw [if_neg]
    norm_num
  have h1 : fallbackPredictionIdx text topk = [sentinelIdx] := by
    unfold fallbackPredictionIdx sortedSdgsIdx
    rw [hsIdx]
    simp
  have h2 : fallbackPredictionML text topk = [sentinelML] := by
    unfold fallbackPredictionML sortedSdgsML
    rw [hsML]
    simp
  refine ⟨h1, h2, ?_, ?_⟩
  · rw [predictSdgsWithHf_noToken _ text topk rfl, h1]
  · show Except.ok (fallbackPredictionML text topk) = _
    rw [h2]

/-- C5 (witness): the empty text matches no keyword anywhere. -/
theorem c5_witness :
    fallbackPredictionIdx "" 3 = [sentinelIdx] ∧
    fallbackPredictionML "" 3 = [sentinelML] ∧
    predictSdgsWithHf ⟨false, fun _ => .timeout⟩ "" 3 = .ok [sentinelIdx] ∧
    mlPredict .noModel "" 3 = .ok [sentinelML] :=
  c5_sentinel "" 3 (by decide) (by decide)

/-- C6 (counterexample): the full normalization is not what precedes
keyword matching or the remote invocation.  Keyword matching only
lower-cases: "wat3er" matches no SDG-6 keyword although its normalized
form "water" does.  The remote tier is sent the raw text truncated to
500 characters: "Water!" is sent unchanged, not its normalization
"water". -/
theorem c6_counterexample :
    pyLower "wat3er" ≠ preprocessText "wat3er" ∧
    extractKeywordsIdx "wat3er" 6 = [] ∧
    extractKeywordsIdx (preprocessText "wat3er") 6 = ["water"] ∧
    hfRemoteInput "Water!" = "Water!" ∧
    preprocessText "Water!" = "water" ∧
    hfRemoteInput "Water!" ≠ preprocessText "Water!" :=
  ⟨by decide, by decide, by decide, rfl, by decide, by decide⟩

/-- C6 (amended): the full normalization is applied exactly once, to
the local classifier's input: `ModelLoader.predict_sdgs` consults the
model only on `_preprocess_text(text)`.  Keyword matching applies only
lower-casing (and is therefore insensitive to prior lower-casing but
not to the full normalization).  The remote tier depends on its
environment only through the raw text truncated to 500 characters. -/
theorem c6_normalization_amended :
    (∀ (f g : String → List ℚ) (text : String) (topk : Nat),
        f (preprocessText text) = g (preprocessText text) →
        mlPredict (.withProba f) text topk = mlPredict (.withProba g) text topk) ∧
    (∀ (env₁ env₂ : HfEnv) (text : String) (topk : Nat),
        env₁.tokenSet = env₂.tokenSet →
        env₁.post (hfRemoteInput text) = env₂.post (hfRemoteInput text) →
        predictSdgsWithHf env₁ text topk = predictSdgsWithHf env₂ text topk) ∧
    (∀ (text : String) (sdg : Nat),
        extractKeywordsIdx (pyLower text) sdg = extractKeywordsIdx text sdg) := by
  refine ⟨?_, ?_, extractKeywordsIdx_lower⟩
  · intro f g text topk h
    simp only [mlPredict]
    rw [h]
  · intro env₁ env₂ text topk h1 h2
    unfold predictSdgsWithHf
    rw [h1, h2]

/-- C6 (witness). -/
theorem c6_witness :
    mlPredict (.withProba (fun _ => [(1:ℚ)/2])) "x" 3 =
      mlPredict (.withProba (fun s =>
        if s = preprocessText "x" then [(1:ℚ)/2] else [])) "x" 3 ∧
    extractKeywordsIdx (pyLower "Water") 6 = extractKeywordsIdx "Water" 6 :=
  ⟨c6_normalization_amended.1 _ _ "x" 3 (by rw [if_pos rfl]),
    c6_normalization_amended.2.2 "Water" 6⟩

/-- C7 (counterexample): a 200 response whose parsed payload lacks the
labels/scores fields yields the empty result list directly; the next
tier — the rule-based fallback, which never returns an empty list — is
not consulted, so the remote strategy does not fall through on this
malformed payload. -/
theorem c7_counterexample :
    predictSdgsWithHf ⟨true, fun _ => .resp 200 (.jsonOk [] [])⟩ "poverty" 3 =
      .ok [] ∧
    fallbackPredictionIdx "poverty" 3 ≠ [] :=
  ⟨rfl, fallbackIdx_ne_nil "poverty" 3⟩

/-- C7 (amended): on a network timeout, any other request exception, an
HTTP 503, or any other non-200 status, and on an unparseable body, the
remote strategy returns the rule-based fallback for that call, without
retrying and without raising; but a 200 response that parses and lacks
the labels/scores fields yields the empty list, not a fall-through. -/
theorem c7_fall_through_amended (env : HfEnv) (text : String) (topk : Nat)
    (ht : env.tokenSet = true) :
    (env.post (hfRemoteInput text) = .timeout →
        predictSdgsWithHf env text topk = .ok (fallbackPredictionIdx text topk)) ∧
    (env.post (hfRemoteInput text) = .raised →
        predictSdgsWithHf env text topk = .ok (fallbackPredictionIdx text topk)) ∧
    (∀ (status : Nat) (body : JsonOutcome), status ≠ 200 →
        env.post (hfRemoteInput text) = .resp status body →
        predictSdgsWithHf env text topk = .ok (fallbackPredictionIdx text topk)) ∧
    (env.post (hfRemoteInput text) = .resp 200 .jsonFail →
        predictSdgsWithHf env text topk = .ok (fallbackPredictionIdx text topk)) ∧
    (env.post (hfRemoteInput text) = .resp 200 (.jsonOk [] []) →
        predictSdgsWithHf env text topk = .ok []) := by
  refine ⟨predictSdgsWithHf_timeout env text topk ht,
    predictSdgsWithHf_raised env text topk ht,
    fun status body hs hp => predictSdgsWithHf_non200 env text topk status body ht hp hs,
    predictSdgsWithHf_jsonFail env text topk ht, ?_⟩
  intro hp
  have h := predictSdgsWithHf_success env text topk [] [] ht hp (by simp)
  rw [h]
  simp

/-- C7 (witness). -/
theorem c7_witness :
    predictSdgsWithHf ⟨true, fun _ => .timeout⟩ "climate" 3 =
      .ok (fallbackPredictionIdx "climate" 3) :=
  (c7_fall_through_amended ⟨true, fun _ => .timeout⟩ "climate" 3 rfl).1 rfl

end SdgPipeline
